import Mathlib

/-!
Verification of the Sprint Metrics Aggregation and Reconciliation Engine
(`sprint_report.py`) against its natural-language specification.

Conventions of the shallow embedding:
* Calendar dates are modelled as integers counting days, with day 0 being a
  Monday, so that `d % 7` is exactly the Python `date.weekday()` value
  (Monday = 0 .. Sunday = 6) and adding 1 is adding one calendar day.
* Python floats are modelled as rationals; JSON null and absent values are
  modelled with `Option`.
* Python `while` loops over a date cursor are compiled to structural
  recursion on the (explicitly computed) number of iterations the loop
  performs, so that every definition evaluates by kernel reduction.
* Python dictionaries are modelled as association lists; a dictionary
  write conses the new binding at the head so that `List.lookup` (which
  returns the first binding) sees the most recent write, matching the
  last-write-wins behaviour of `dict.__setitem__`.
-/

namespace SprintReport

/-! ## Date helpers (`working_days_since`, `_daterange_inclusive`) -/

/-- Body of the `while d <= e` loop of `_daterange_inclusive`
(`sprint_report.py` lines 2101-2119): starting at day `s`, append `n`
consecutive days.  The Python loop executes `(e + 1 - s).toNat` iterations
(zero when `e < s`), which is the fuel supplied by `_daterange_inclusive`. -/
def daterange_go (s : Int) : Nat → List Int
  | 0 => []
  | n + 1 => s :: daterange_go (s + 1) n

/-- Embedding of `_daterange_inclusive(start_date, end_date)`
(`sprint_report.py` lines 2101-2119): the inclusive list of days from
`start_date` to `end_date`, empty when the range is reversed.  Dates are
pre-parsed (the Python function parses ISO strings). -/
def _daterange_inclusive (start_date end_date : Int) : List Int :=
  daterange_go start_date (end_date + 1 - start_date).toNat

/-- Body of the counting loop shared by `working_days_inclusive` and
`working_days_since` (`sprint_report.py` lines 391-403 and 435-447):
starting at day `d`, scan `n` consecutive days and count those whose
weekday is Monday..Friday (`d.weekday() < 5`, i.e. `d % 7 < 5`). -/
def count_weekdays_go (d : Int) : Nat → Nat
  | 0 => 0
  | n + 1 => (if d % 7 < 5 then 1 else 0) + count_weekdays_go (d + 1) n

/-- Embedding of `working_days_since(created_dt, today_date)`
(`sprint_report.py` lines 407-447).  `created = none` models a falsy
creation value (`if not created_dt: return 0`); otherwise, if
`today_date <= c` the answer is 0, and otherwise the loop runs from
`c + 1` up to `today_date` inclusive, i.e. `(today - c).toNat` iterations. -/
def working_days_since (created : Option Int) (today : Int) : Nat :=
  match created with
  | none => 0
  | some c => if today ≤ c then 0 else count_weekdays_go (c + 1) (today - c).toNat

theorem daterange_go_length (s : Int) (n : Nat) : (daterange_go s n).length = n := by
  induction n generalizing s with
  | zero => rfl
  | succ n ih => simp [daterange_go, ih]

theorem daterange_go_getD (s : Int) (n i : Nat) (h : i < n) :
    (daterange_go s n).getD i 0 = s + i := by
  induction n generalizing s i with
  | zero => omega
  | succ n ih =>
    cases i with
    | zero => simp [daterange_go]
    | succ i =>
      have := ih (s + 1) i (by omega)
      simp only [daterange_go, List.getD_cons_succ, this]
      push_cast
      ring

theorem count_weekdays_go_eq_filter (n : Nat) (s : Int) :
    count_weekdays_go s n
      = ((daterange_go s n).filter (fun d => decide (d % 7 < 5))).length := by
  induction n generalizing s with
  | zero => rfl
  | succ n ih =>
    simp only [count_weekdays_go, daterange_go, List.filter_cons]
    by_cases h : s % 7 < 5 <;> simp [h, ih (s + 1)] <;> omega

/-- Claim C8: `working_days_since` counts only Monday-to-Friday calendar days
strictly after the creation date and up to and including today (second
conjunct, stated as the length of the weekday filter of the inclusive day
range from the day after creation up to today); an item created today or on
any date not before today has age 0 (first conjunct, and a falsy creation
value also yields 0, fourth conjunct), so a negative range yields 0 and the
result, a natural number, is never negative; an item created on a Friday
(weekday 4) evaluated on the following Monday has age exactly 1 (third
conjunct). -/
theorem working_days_since_spec (c t : Int) :
    (t ≤ c → working_days_since (some c) t = 0)
    ∧ working_days_since (some c) t
        = ((_daterange_inclusive (c + 1) t).filter (fun d => decide (d % 7 < 5))).length
    ∧ (c % 7 = 4 → working_days_since (some c) (c + 3) = 1)
    ∧ working_days_since none t = 0 := by
  refine ⟨fun h => by simp [working_days_since, h], ?_, ?_, rfl⟩
  · by_cases h : t ≤ c
    · have hn : (t - c).toNat = 0 := by omega
      have hn2 : (t + 1 - (c + 1)).toNat = 0 := by omega
      simp [working_days_since, h, _daterange_inclusive, hn, hn2, daterange_go]
    · have hn : (t + 1 - (c + 1)).toNat = (t - c).toNat := by omega
      simp [working_days_since, h, _daterange_inclusive, hn,
        count_weekdays_go_eq_filter]
  · intro hfri
    have h1 : ¬ (c + 3 ≤ c) := by omega
    have hn : (c + 3 - c).toNat = 3 := by omega
    have w1 : ¬ ((c + 1) % 7 < 5) := by omega
    have w2 : ¬ ((c + 1 + 1) % 7 < 5) := by omega
    have w3 : (c + 1 + 1 + 1) % 7 < 5 := by omega
    simp [working_days_since, h1, hn, count_weekdays_go, w1, w2, w3]

/-- Witness for C8: an item created on day 4 (a Friday) and checked on day 7
(the following Monday) has age 1, and an item created today has age 0. -/
theorem working_days_since_spec_check :
    working_days_since (some 4) 7 = 1 ∧ working_days_since (some 4) 4 = 0 :=
  ⟨by have h := (working_days_since_spec 4 7).2.2.1 (by decide); exact h,
   (working_days_since_spec 4 4).1 (by decide)⟩

/-! ## Sprint report model and the metrics reconciler (C1, C2, C3) -/

/-- One item of the sprint report contents lists.  `key` is `it.get("key")`
(possibly absent); `estimateStatistic` is the numeric value reachable via
`estimateStatistic.statFieldValue.value` (or its parseable `text` form);
`none` models every shape for which the Python helper `sp` falls through to
`0.0` (absent statistic, absent value, unparseable text). -/
structure ReportItem where
  key : Option String
  estimateStatistic : Option ℚ
  deriving DecidableEq

/-- Embedding of the local helper `sp(est)` of
`compute_committed_completed_from_report` and `build_sp_map_from_report`
(`sprint_report.py` lines 717-729 and 785-797): the numeric estimate of an
item, `0.0` when absent. -/
def sp_stat (est : Option ℚ) : ℚ := est.getD 0

/-- The `contents` object of a Greenhopper sprint report:
`completedIssues`, `issuesNotCompletedInCurrentSprint`, and the keys of the
`issueKeysAddedDuringSprint` dictionary (a JSON object, listed here in
iteration order, possibly with duplicates for full generality; the Python
code immediately wraps them in `set(...)`). -/
structure ReportContents where
  completedIssues : List ReportItem
  issuesNotCompletedInCurrentSprint : List ReportItem
  issueKeysAddedDuringSprint : List String
  deriving DecidableEq

/-- A sprint report; only the `contents` member is consulted by the
reconciler (`report.get("contents")` defaulting to the empty dictionary). -/
structure Report where
  contents : ReportContents
  deriving DecidableEq

/-- The Python `added_mid = set((contents.get("issueKeysAddedDuringSprint") or Map()).keys())`
(`sprint_report.py` line 781), as a duplicate-free list. -/
def added_keys (r : Report) : List String :=
  r.contents.issueKeysAddedDuringSprint.dedup

/-- Membership of an optional issue key in the mid-sprint-added key set:
`it.get("key") not in added_mid` is the negation of this (a `None` key is
never in a set of strings). -/
def key_in_added (k : Option String) (added : List String) : Bool :=
  match k with
  | some s => s ∈ added
  | none => false

/-- Embedding of `compute_committed_completed_from_report(report)`
(`sprint_report.py` lines 771-825), the fallback reconciliation:
`completed_sp` sums the estimate over all completed items; `committed_sp`
accumulates (two `for` loops over `completed` then `not_completed`) the
estimate of every item whose key is not in `added_mid`;
`scope_change_count = len(added_mid)`; `carry_over_count = len(not_completed)`. -/
def compute_committed_completed_from_report (r : Report) : ℚ × ℚ × Nat × Nat :=
  let completed := r.contents.completedIssues
  let not_completed := r.contents.issuesNotCompletedInCurrentSprint
  let added_mid := added_keys r
  let completed_sp := (completed.map (fun it => sp_stat it.estimateStatistic)).sum
  let committed1 := completed.foldl
    (fun acc it => if key_in_added it.key added_mid then acc
                   else acc + sp_stat it.estimateStatistic) 0
  let committed_sp := not_completed.foldl
    (fun acc it => if key_in_added it.key added_mid then acc
                   else acc + sp_stat it.estimateStatistic) committed1
  (committed_sp, completed_sp, added_mid.length, not_completed.length)

theorem foldl_if_sum (l : List ReportItem) (added : List String) (a : ℚ) :
    l.foldl (fun acc it => if key_in_added it.key added then acc
                           else acc + sp_stat it.estimateStatistic) a
      = a + ((l.filter (fun it => ! key_in_added it.key added)).map
              (fun it => sp_stat it.estimateStatistic)).sum := by
  induction l generalizing a with
  | nil => simp
  | cons x xs ih =>
    simp only [List.foldl_cons, List.filter_cons]
    by_cases h : key_in_added x.key added
    · simp [h, ih]
    · rw [if_neg h, ih]
      simp [h]
      ring

/-- Claim C1: on any sprint report the fallback reconciliation returns
exactly: committed effort = the sum of per-item effort over the completed
and not-completed items whose key is not among the mid-sprint-added keys;
completed effort = the sum of per-item effort over all completed items
(mid-sprint additions included); scope-change count = the number of
mid-sprint-added keys; carry-over count = the number of not-completed
items. -/
theorem fallback_reconciliation_spec (r : Report) :
    compute_committed_completed_from_report r
      = ((((r.contents.completedIssues ++ r.contents.issuesNotCompletedInCurrentSprint).filter
            (fun it => ! key_in_added it.key (added_keys r))).map
            (fun it => sp_stat it.estimateStatistic)).sum,
         (r.contents.completedIssues.map (fun it => sp_stat it.estimateStatistic)).sum,
         (added_keys r).length,
         r.contents.issuesNotCompletedInCurrentSprint.length) := by
  simp only [compute_committed_completed_from_report, foldl_if_sum,
    List.filter_append, List.map_append, List.sum_append, zero_add]

/-- A key of the `velocityStatEntries` JSON object.  The Python lookup
`entries.get(str(sprint_id)) or entries.get(int(sprint_id))` probes the
dictionary with a string key and then with an integer key, so keys are
modelled as a disjoint sum of the two forms. -/
abbrev VKey := String ⊕ Int

/-- One entry of `velocityStatEntries`: the `estimated.value` and
`completed.value` numbers; `none` models an absent or falsy value, which the
Python `float(... or 0)` turns into `0`. -/
structure VelocityEntry where
  estimated : Option ℚ
  completed : Option ℚ
  deriving DecidableEq

/-- The decoded velocity endpoint payload: its `velocityStatEntries`
dictionary as an association list. -/
structure VelocityJson where
  velocityStatEntries : List (VKey × VelocityEntry)
  deriving DecidableEq

/-- The dual-form entry lookup
`entries.get(str(sprint_id)) or entries.get(int(sprint_id))`
(`sprint_report.py` line 753): probe the string form first, then the
integer form.  (The Python `or` would also skip a present-but-empty entry
dictionary; entries are modelled as always truthy, which no claim
exercises.) -/
def ventry_lookup (entries : List (VKey × VelocityEntry)) (sprint_id : Int) :
    Option VelocityEntry :=
  (entries.lookup (Sum.inl (toString sprint_id))).orElse
    (fun _ => entries.lookup (Sum.inr sprint_id))

/-- Embedding of `get_committed_completed_from_velocity(board_id, sprint_id)`
(`sprint_report.py` lines 743-767).  `velocity = none` models the `except`
branch (endpoint unreachable: `velocity_json` raised); otherwise, if the
entry map has an entry for the sprint id the committed/completed pair is
read from it (`float((entry.get(...) or Map()).get("value") or 0)`), and if
not the function returns `(None, None)`. -/
def get_committed_completed_from_velocity (velocity : Option VelocityJson)
    (sprint_id : Int) : Option ℚ × Option ℚ :=
  match velocity with
  | none => (none, none)
  | some vj =>
    match ventry_lookup vj.velocityStatEntries sprint_id with
    | some entry => (some (entry.estimated.getD 0), some (entry.completed.getD 0))
    | none => (none, none)

/-- Embedding of the reconciliation step of `main`
(`sprint_report.py` lines 3249-3259): when the velocity endpoint supplied
both numbers they are used verbatim for committed/completed effort while
the scope-change and carry-over counts still come from
`compute_committed_completed_from_report`; otherwise all four values come
from the fallback computation. -/
def reconcile (vres : Option ℚ × Option ℚ) (r : Report) : ℚ × ℚ × Nat × Nat :=
  match vres with
  | (some est_v, some comp_v) =>
    let q := compute_committed_completed_from_report r
    (est_v, comp_v, q.2.2.1, q.2.2.2)
  | _ => compute_committed_completed_from_report r

/-- Claim C2: whatever the velocity endpoint returned (absent, missing
entry, or both totals), the scope-change count and carry-over count of the
reconciled metrics are exactly those of the fallback computation on the raw
sprint report — the authoritative path only ever replaces the two effort
totals. -/
theorem counts_always_from_fallback (vres : Option ℚ × Option ℚ) (r : Report) :
    (reconcile vres r).2.2 = (compute_committed_completed_from_report r).2.2 := by
  rcases vres with ⟨_ | e, _ | c⟩ <;> rfl

/-- Claim C3: if the velocity endpoint is reachable but its entry map has no
entry for the sprint id under either the string or the integer key form,
the reconciler takes the fallback path and produces a result identical to
invoking the fallback computation directly on the raw sprint report. -/
theorem velocity_missing_entry_falls_back (entries : List (VKey × VelocityEntry))
    (sprint_id : Int) (r : Report)
    (h1 : entries.lookup (Sum.inl (toString sprint_id)) = none)
    (h2 : entries.lookup (Sum.inr sprint_id) = none) :
    reconcile (get_committed_completed_from_velocity (some ⟨entries⟩) sprint_id) r
      = compute_committed_completed_from_report r := by
  simp [get_committed_completed_from_velocity, ventry_lookup, h1, h2, reconcile]

/-- Witness for C3: a reachable velocity payload holding only an entry for
sprint 1 has no entry for sprint 999, so the reconciler output on a small
concrete report equals the direct fallback computation. -/
theorem velocity_missing_entry_falls_back_check :
    reconcile
        (get_committed_completed_from_velocity
          (some ⟨[(Sum.inl "1", ⟨some 5, some 3⟩)]⟩) 999)
        ⟨⟨[⟨some "A-1", some 2⟩], [⟨some "A-2", some 3⟩], ["A-3"]⟩⟩
      = compute_committed_completed_from_report
          ⟨⟨[⟨some "A-1", some 2⟩], [⟨some "A-2", some 3⟩], ["A-3"]⟩⟩ :=
  velocity_missing_entry_falls_back _ _ _ (by decide) (by decide)

/-! ## Engineering-metrics day series with zero-fill (C4) -/

/-- One raw per-day metric row fed to `_lb_timeseries_complete`.  `date` is
the parsed `row.get("date")` (`none` models an absent or unparseable ISO
string, which the Python loop skips); `val` is the minutes value
`row.get(key)` for the series key under construction (`none` models JSON
null). -/
structure LBRow where
  date : Option Int
  val : Option ℚ
  deriving DecidableEq

/-- One iteration of the `for row in points` loop of
`_lb_timeseries_complete` (`sprint_report.py` lines 2139-2157): store
`v_min / 60` hours (or `0.0` for a null value) under the parsed date,
skipping rows without a parseable date.  New bindings are consed at the
head so `List.lookup` returns the most recent write, matching dictionary
overwrite. -/
def _lb_store (m : List (Int × ℚ)) (row : LBRow) : List (Int × ℚ) :=
  match row.date with
  | none => m
  | some d => (d, match row.val with | some v => v / 60 | none => 0) :: m

/-- The `by_date_hours` dictionary built by `_lb_timeseries_complete`. -/
def _lb_by_date_hours (points : List LBRow) : List (Int × ℚ) :=
  points.foldl _lb_store []

/-- Embedding of `_lb_timeseries_complete(points, start_date, end_date, key)`
(`sprint_report.py` lines 2123-2163): the inclusive date axis together with
one value per day, zero for days absent from `by_date_hours`
(`by_date_hours.get(day, 0.0)`). -/
def _lb_timeseries_complete (points : List LBRow) (start_date end_date : Int) :
    List Int × List ℚ :=
  let all_days := _daterange_inclusive start_date end_date
  let by_date := _lb_by_date_hours points
  (all_days, all_days.map (fun day => ((by_date.lookup day).getD 0)))

theorem lb_store_lookup_none (points : List LBRow) (m : List (Int × ℚ)) (d : Int)
    (hm : m.lookup d = none) (h : ∀ row ∈ points, row.date ≠ some d) :
    (points.foldl _lb_store m).lookup d = none := by
  induction points generalizing m with
  | nil => simpa using hm
  | cons row rest ih =>
    simp only [List.foldl_cons]
    refine ih _ ?_ (fun q hq => h q (List.mem_cons_of_mem _ hq))
    have hrow := h row (List.mem_cons_self _ _)
    match hd : row.date with
    | none => simpa [_lb_store, hd] using hm
    | some e =>
      have hne : (d == e) = false := by
        refine beq_eq_false_iff_ne.mpr ?_
        intro he
        exact hrow (by rw [hd, he])
      simp [_lb_store, hd, List.lookup, hne, hm]

/-- Claim C4: for every inclusive date range with `start_date ≤ end_date`
and every (possibly sparse) list of raw rows, the zero-fill series builder
returns a date axis of length `(end_date - start_date) + 1` whose
consecutive dates increase by exactly one calendar day, a value list of the
same length, and value 0 at every date of the range that no raw row
mentions. -/
theorem lb_timeseries_zero_fill_spec (start_date end_date : Int)
    (hse : start_date ≤ end_date) (points : List LBRow) :
    ((_lb_timeseries_complete points start_date end_date).1.length
        = (end_date - start_date).toNat + 1)
    ∧ ((_lb_timeseries_complete points start_date end_date).2.length
        = (_lb_timeseries_complete points start_date end_date).1.length)
    ∧ (∀ i, i + 1 < (_lb_timeseries_complete points start_date end_date).1.length →
        (_lb_timeseries_complete points start_date end_date).1.getD (i + 1) 0
          = (_lb_timeseries_complete points start_date end_date).1.getD i 0 + 1)
    ∧ (∀ i, i < (_lb_timeseries_complete points start_date end_date).1.length →
        (∀ row ∈ points,
          row.date ≠ some ((_lb_timeseries_complete points start_date end_date).1.getD i 0)) →
        (_lb_timeseries_complete points start_date end_date).2.getD i 0 = 0) := by
  have hfuel : (end_date + 1 - start_date).toNat = (end_date - start_date).toNat + 1 := by
    omega
  have hlen : (_lb_timeseries_complete points start_date end_date).1.length
      = (end_date - start_date).toNat + 1 := by
    simp [_lb_timeseries_complete, _daterange_inclusive, hfuel, daterange_go_length]
  refine ⟨hlen, by simp [_lb_timeseries_complete], ?_, ?_⟩
  · intro i hi
    rw [hlen] at hi
    have g1 := daterange_go_getD start_date ((end_date + 1 - start_date).toNat) (i + 1)
      (by omega)
    have g0 := daterange_go_getD start_date ((end_date + 1 - start_date).toNat) i
      (by omega)
    simp only [_lb_timeseries_complete, _daterange_inclusive] at g1 g0 ⊢
    rw [g1, g0]
    push_cast
    ring
  · intro i hi habs
    rw [hlen] at hi
    have hi' : i < (_daterange_inclusive start_date end_date).length := by
      simp [_daterange_inclusive, hfuel, daterange_go_length]; omega
    have hmap : (_lb_timeseries_complete points start_date end_date).2.getD i 0
        = ((_lb_by_date_hours points).lookup
            ((_daterange_inclusive start_date end_date).getD i 0)).getD 0 := by
      simp only [_lb_timeseries_complete]
      rw [List.getD_eq_getElem _ _ (by simpa using hi'), List.getElem_map,
        List.getD_eq_getElem _ _ hi']
    rw [hmap]
    have : ((_lb_by_date_hours points).lookup
        ((_daterange_inclusive start_date end_date).getD i 0)) = none := by
      apply lb_store_lookup_none points [] _ rfl
      intro row hrow
      have := habs row hrow
      simpa [_lb_timeseries_complete] using this
    rw [this]
    rfl

/-- Witness for C4: the range from day 0 to day 2 with a single raw row on
day 0 gives a three-day axis stepping by one day and zero values on the two
days with no raw data. -/
theorem lb_timeseries_zero_fill_spec_check :
    ((_lb_timeseries_complete [⟨some 0, some 120⟩] 0 2).1.length = (2 - 0 : Int).toNat + 1)
    ∧ ((_lb_timeseries_complete [⟨some 0, some 120⟩] 0 2).1.getD 1 0
        = (_lb_timeseries_complete [⟨some 0, some 120⟩] 0 2).1.getD 0 0 + 1)
    ∧ ((_lb_timeseries_complete [⟨some 0, some 120⟩] 0 2).2.getD 1 0 = 0) := by
  have h := lb_timeseries_zero_fill_spec 0 2 (by decide) [⟨some 0, some 120⟩]
  exact ⟨h.1, h.2.2.1 0 (by rw [h.1]; decide), h.2.2.2 1 (by rw [h.1]; decide)
    (by decide)⟩

/-! ## Issue field records and per-issue effort resolution (C6) -/

/-- The custom-field portion of a JSON `fields` object: the discovered
numeric fields present on the record, each possibly null.  A field id
absent from the list models a key absent from the dictionary. -/
abbrev FieldVals := List (String × Option ℚ)

/-- The `status` sub-object of a `fields` record: `status.name` and
`status.statusCategory.key`, each possibly absent or null. -/
structure StatusObj where
  name : Option String
  statusCategoryKey : Option String
  deriving DecidableEq

/-- A JSON issue `fields` record, restricted to the members the builders
read.  `issuetypeName` is `fields.issuetype.name`; `assigneeDisplayName` is
`fields.assignee.displayName`; `resolutiondate` and `created` are the
parsed timestamps (dates, in the day model; `none` models absent, null or
unparseable); `epicLink` is the resolved value of the discovered epic-link
field (`none` models both an absent key and a null value, which every
consumer treats alike); `custom` holds the discovered numeric fields. -/
structure Fields where
  summary : Option String
  issuetypeName : Option String
  status : Option StatusObj
  assigneeDisplayName : Option String
  resolutiondate : Option Int
  created : Option Int
  epicLink : Option String
  custom : FieldVals
  deriving DecidableEq

/-- The empty `fields` dictionary, produced by `it.get("fields") or Map()`
and by a failed per-issue fetch. -/
def Fields.empty : Fields := ⟨none, none, none, none, none, none, none, []⟩

/-- A raw issue as returned by the tracker: `it.get("key")` and
`it.get("fields")`. -/
structure Issue where
  key : Option String
  fields : Option Fields
  deriving DecidableEq

/-- Embedding of `_field_sp_from_fields(fields_obj)`
(`sprint_report.py` lines 691-701): scan the discovered effort-field ids in
order and return the first value that is present and non-null
(`fid in fields_obj and fields_obj[fid] is not None`); `none` when no
candidate matches.  Values are numbers (the discovery step keeps only
number-typed fields), so the Python `float(...)` conversion never falls
through. -/
def _field_sp_from_fields (spIds : List String) (custom : FieldVals) : Option ℚ :=
  match spIds with
  | [] => none
  | fid :: rest =>
    match custom.lookup fid with
    | some (some v) => some v
    | _ => _field_sp_from_fields rest custom

/-- The present-and-non-null test for one candidate field id, used to state
properties of the ordered scan. -/
def sp_field_present (custom : FieldVals) (fid : String) : Option ℚ :=
  match custom.lookup fid with
  | some (some v) => some v
  | _ => none

/-- The substitution every summation path applies to an unresolved effort
(`sp = _field_sp_from_fields(f)` followed by `if sp is None: sp = 0.0`,
e.g. `sprint_report.py` lines 1627-1629). -/
def sp_sum_value (spIds : List String) (custom : FieldVals) : ℚ :=
  match _field_sp_from_fields spIds custom with
  | some v => v
  | none => 0

/-- The `sp_vals` list collected by `stories_tasks_without_sp`
(`sprint_report.py` lines 1131-1139): the values of all candidate fields
present and non-null on the record, in field order. -/
def sp_vals (spIds : List String) (custom : FieldVals) : List ℚ :=
  spIds.filterMap (fun fid => (custom.lookup fid).bind (fun v => v))

/-- The flagging predicate of the missing-or-zero-effort audit
(`sprint_report.py` lines 1141-1145): flag when no candidate field is
present (`not has_any`) or when the sum of the present values is zero. -/
def missing_sp_flag (spIds : List String) (custom : FieldVals) : Bool :=
  let vals := sp_vals spIds custom
  let has_any := decide (vals.length > 0)
  let sp_sum := if has_any then vals.sum else 0
  !has_any || decide (sp_sum = 0)

theorem field_sp_eq_none_of_all_absent (spIds : List String) (custom : FieldVals)
    (h : ∀ fid ∈ spIds, sp_field_present custom fid = none) :
    _field_sp_from_fields spIds custom = none := by
  induction spIds with
  | nil => rfl
  | cons fid rest ih =>
    have hfid := h fid (List.mem_cons_self _ _)
    have hrest := ih (fun g hg => h g (List.mem_cons_of_mem _ hg))
    simp only [_field_sp_from_fields]
    simp only [sp_field_present] at hfid
    match hl : custom.lookup fid with
    | some (some v) => rw [hl] at hfid; exact absurd hfid (by simp)
    | some none => exact hrest
    | none => exact hrest

theorem sp_vals_nil_of_all_absent (spIds : List String) (custom : FieldVals)
    (h : ∀ fid ∈ spIds, sp_field_present custom fid = none) :
    sp_vals spIds custom = [] := by
  induction spIds with
  | nil => rfl
  | cons fid rest ih =>
    have hfid := h fid (List.mem_cons_self _ _)
    have hrest := ih (fun g hg => h g (List.mem_cons_of_mem _ hg))
    simp only [sp_vals, List.filterMap_cons] at hrest ⊢
    simp only [sp_field_present] at hfid
    match hl : custom.lookup fid with
    | some (some v) => rw [hl] at hfid; exact absurd hfid (by simp)
    | some none => exact hrest
    | none => exact hrest

/-- Claim C6: effort resolution scans the ordered candidate list and
returns the value of the first field present and non-null on the record —
in particular an issue whose value sits only in a later candidate field
still resolves (first conjunct, stated positionally) — and when no
candidate field is present it returns the absent marker `none`, not zero;
in that case the summation paths substitute zero and the missing-effort
hygiene audit flags the record (second conjunct). -/
theorem effort_resolution_first_present_spec (spIds : List String) (custom : FieldVals) :
    (∀ i, i < spIds.length → ∀ v : ℚ,
      sp_field_present custom (spIds.getD i "") = some v →
      (∀ j, j < i → sp_field_present custom (spIds.getD j "") = none) →
      _field_sp_from_fields spIds custom = some v)
    ∧ ((∀ fid ∈ spIds, sp_field_present custom fid = none) →
        _field_sp_from_fields spIds custom = none
        ∧ sp_sum_value spIds custom = 0
        ∧ missing_sp_flag spIds custom = true) := by
  constructor
  · induction spIds with
    | nil => intro i hi; exact absurd hi (by simp)
    | cons fid rest ih =>
      intro i hi v hv hprev
      cases i with
      | zero =>
        simp only [List.getD_cons_zero] at hv
        simp only [_field_sp_from_fields]
        simp only [sp_field_present] at hv
        match hl : custom.lookup fid with
        | some (some w) => rw [hl] at hv; simpa using hv
        | some none => rw [hl] at hv; exact absurd hv (by simp)
        | none => rw [hl] at hv; exact absurd hv (by simp)
      | succ i =>
        have h0 := hprev 0 (by omega)
        simp only [List.getD_cons_zero] at h0
        simp only [List.getD_cons_succ] at hv
        have hrec := ih i (by simpa using hi) v hv
          (fun j hj => by
            have := hprev (j + 1) (by omega)
            simpa using this)
        simp only [_field_sp_from_fields]
        simp only [sp_field_present] at h0
        match hl : custom.lookup fid with
        | some (some w) => rw [hl] at h0; exact absurd h0 (by simp)
        | some none => exact hrec
        | none => exact hrec
  · intro h
    have h1 := field_sp_eq_none_of_all_absent spIds custom h
    have h2 := sp_vals_nil_of_all_absent spIds custom h
    exact ⟨h1, by simp [sp_sum_value, h1], by simp [missing_sp_flag, h2]⟩

/-- Witness for C6: with two discovered candidate fields, a record whose
value lives only in the second still resolves to that value (8); a record
with no candidate field present resolves to the absent marker, sums as
zero, and is flagged by the audit. -/
theorem effort_resolution_first_present_spec_check :
    _field_sp_from_fields ["cf1", "cf2"] [("cf2", some 8)] = some 8
    ∧ (_field_sp_from_fields ["cf1", "cf2"] [] = none
        ∧ sp_sum_value ["cf1", "cf2"] [] = 0
        ∧ missing_sp_flag ["cf1", "cf2"] [] = true) :=
  ⟨(effort_resolution_first_present_spec ["cf1", "cf2"] [("cf2", some 8)]).1 1
      (by decide) 8 (by decide) (by decide),
   (effort_resolution_first_present_spec ["cf1", "cf2"] []).2 (by decide)⟩

/-! ## Burndown remaining series (C5) -/

/-- The per-issue contribution to the daily done bucket inside the issue
loop of `render_burndown_png_bytes` (`sprint_report.py` lines 1609-1631):
an issue adds its resolved effort (`_field_sp_from_fields`, zero when
absent) to the bucket of its resolution date, provided that date parses and
falls inside the sprint day range (`days[0] .. days[-1]`). -/
def bd_contribution (spIds : List String) (lo hi day : Int) (it : Issue) : ℚ :=
  let f := it.fields.getD Fields.empty
  match f.resolutiondate with
  | none => 0
  | some d =>
    if d < lo ∨ hi < d then 0
    else if d = day then sp_sum_value spIds f.custom else 0

/-- The value of the `done_by_day` dictionary at `day`: the sum of effort
over all issues resolved on that day inside the range. -/
def done_on (spIds : List String) (issues : List Issue) (lo hi day : Int) : ℚ :=
  (issues.map (bd_contribution spIds lo hi day)).sum

/-- The `remaining` accumulation loop of `render_burndown_png_bytes`
(`sprint_report.py` lines 1637-1645): walk the daily done deltas carrying
the cumulative done `cum`, emitting `max(committed_sp - cum, 0.0)` per day. -/
def remaining_go (committed cum : ℚ) : List ℚ → List ℚ
  | [] => []
  | d :: ds => max (committed - (cum + d)) 0 :: remaining_go committed (cum + d) ds

/-- The actual-remaining series of the burndown chart: one clamped
remaining value per sprint day.  `startDay`/`endDay` are the resolved
sprint start and end dates (`sprint.startDate` and
`sprint.completeDate or sprint.endDate`); the day axis is the same
inclusive while-loop range as `_daterange_inclusive`. -/
def burndown_remaining (spIds : List String) (committed : ℚ)
    (startDay endDay : Int) (issues : List Issue) : List ℚ :=
  let days := _daterange_inclusive startDay endDay
  remaining_go committed 0 (days.map (done_on spIds issues startDay endDay))

theorem remaining_go_length (committed cum : ℚ) (ds : List ℚ) :
    (remaining_go committed cum ds).length = ds.length := by
  induction ds generalizing cum with
  | nil => rfl
  | cons d ds ih => simp [remaining_go, ih]

theorem remaining_go_getD (committed cum : ℚ) (ds : List ℚ) (i : Nat)
    (h : i < ds.length) :
    (remaining_go committed cum ds).getD i 0
      = max (committed - (cum + ((ds.take (i + 1)).sum))) 0 := by
  induction ds generalizing cum i with
  | nil => simp at h
  | cons d ds ih =>
    cases i with
    | zero => simp [remaining_go]
    | succ i =>
      have := ih (cum + d) i (by simpa using h)
      simp only [remaining_go, List.getD_cons_succ, this, List.take_succ_cons,
        List.sum_cons]
      ring_nf

/-- Claim C5 (amended): provided every issue resolves to a non-negative
effort value, the burndown remaining series satisfies, at every day index,
`remaining[i] = max(committed - cumulativeDone[i], 0)` (first conjunct,
with `cumulativeDone[i]` the sum of the first `i + 1` daily done deltas),
every element is non-negative (second conjunct), and the series never
increases day over day (third conjunct).  The non-negativity hypothesis is
required: the builder does not clamp per-issue effort, so a negative stored
effort value makes the remaining series increase (see the accompanying
counterexample). -/
theorem burndown_remaining_spec (spIds : List String) (committed : ℚ)
    (startDay endDay : Int) (issues : List Issue)
    (hsp : ∀ it ∈ issues, 0 ≤ sp_sum_value spIds ((it.fields.getD Fields.empty)).custom) :
    (∀ i, i < (burndown_remaining spIds committed startDay endDay issues).length →
      (burndown_remaining spIds committed startDay endDay issues).getD i 0
        = max (committed
            - (((_daterange_inclusive startDay endDay).map
                  (done_on spIds issues startDay endDay)).take (i + 1)).sum) 0)
    ∧ (∀ i, i < (burndown_remaining spIds committed startDay endDay issues).length →
        0 ≤ (burndown_remaining spIds committed startDay endDay issues).getD i 0)
    ∧ (∀ i, i + 1 < (burndown_remaining spIds committed startDay endDay issues).length →
        (burndown_remaining spIds committed startDay endDay issues).getD (i + 1) 0
          ≤ (burndown_remaining spIds committed startDay endDay issues).getD i 0) := by
  have hdelta : ∀ d : Int, 0 ≤ done_on spIds issues startDay endDay d := by
    intro d
    apply List.sum_nonneg
    intro x hx
    rcases List.mem_map.mp hx with ⟨it, hit, rfl⟩
    have hnn := hsp it hit
    match h : (it.fields.getD Fields.empty).resolutiondate with
    | none => simp [bd_contribution, h]
    | some rd =>
      simp only [bd_contribution, h]
      by_cases h1 : rd < startDay ∨ endDay < rd
      · simp [h1]
      · by_cases h2 : rd = d
        · subst h2
          simp [h1, hnn]
        · simp [h1, h2]
  have hlen : (burndown_remaining spIds committed startDay endDay issues).length
      = ((_daterange_inclusive startDay endDay).map
          (done_on spIds issues startDay endDay)).length := by
    simp [burndown_remaining, remaining_go_length]
  refine ⟨?_, ?_, ?_⟩
  · intro i hi
    rw [hlen] at hi
    simpa [burndown_remaining] using
      remaining_go_getD committed 0 _ i hi
  · intro i hi
    rw [hlen] at hi
    have := remaining_go_getD committed 0
      ((_daterange_inclusive startDay endDay).map (done_on spIds issues startDay endDay))
      i hi
    simp only [burndown_remaining]
    rw [this]
    exact le_max_right _ _
  · intro i hi
    rw [hlen] at hi
    set ds := (_daterange_inclusive startDay endDay).map
      (done_on spIds issues startDay endDay) with hds
    have e1 := remaining_go_getD committed 0 ds (i + 1) hi
    have e0 := remaining_go_getD committed 0 ds i (by omega)
    simp only [burndown_remaining, ← hds]
    rw [e1, e0]
    apply max_le_max_right
    have hsum : (ds.take (i + 1)).sum ≤ (ds.take (i + 2)).sum := by
      have hgetElem : (ds.take (i + 2)) = (ds.take (i + 1)) ++ [ds[i + 1]] := by
        rw [← List.take_concat_get _ _ hi, List.concat_eq_append]
      rw [hgetElem, List.sum_append, List.sum_cons, List.sum_nil]
      have hall : ∀ x ∈ ds, 0 ≤ x := by
        intro x hx
        rw [hds] at hx
        rcases List.mem_map.mp hx with ⟨d, _, rfl⟩
        exact hdelta d
      have : 0 ≤ ds[i + 1] := hall _ (List.getElem_mem _)
      linarith
    linarith

/-- Witness for C5: a two-issue sprint (efforts 20 and 15 resolved on days
1 and 4 of a range from day 0 to day 9) with committed effort 50 has a
non-negative remaining series that never increases; the theorem applies
because every stored effort is non-negative. -/
theorem burndown_remaining_spec_check :
    0 ≤ (burndown_remaining ["sp"] 50 0 9
        [⟨some "A-1", some ⟨none, none, none, none, some 1, none, none, [("sp", some 20)]⟩⟩,
         ⟨some "A-2", some ⟨none, none, none, none, some 4, none, none, [("sp", some 15)]⟩⟩]).getD 0 0
    ∧ (burndown_remaining ["sp"] 50 0 9
        [⟨some "A-1", some ⟨none, none, none, none, some 1, none, none, [("sp", some 20)]⟩⟩,
         ⟨some "A-2", some ⟨none, none, none, none, some 4, none, none, [("sp", some 15)]⟩⟩]).getD 2 0
      ≤ (burndown_remaining ["sp"] 50 0 9
        [⟨some "A-1", some ⟨none, none, none, none, some 1, none, none, [("sp", some 20)]⟩⟩,
         ⟨some "A-2", some ⟨none, none, none, none, some 4, none, none, [("sp", some 15)]⟩⟩]).getD 1 0 := by
  refine ⟨(burndown_remaining_spec ["sp"] 50 0 9 _ (by decide)).2.1 0 (by decide),
    (burndown_remaining_spec ["sp"] 50 0 9 _ (by decide)).2.2 1 (by decide)⟩

/-- Counterexample for C5 as stated: with committed effort 10 over days 0-2
and an issue whose stored effort value is negative (-5, resolved on day 1),
the code computes the remaining series [7, 12, 12], which increases from
day 0 to day 1 — so without a non-negativity assumption on effort values
the remaining series is not monotonically non-increasing. -/
theorem burndown_monotonicity_fails_on_negative_effort :
    burndown_remaining ["sp"] 10 0 2
        [⟨some "B-1", some ⟨none, none, none, none, some 0, none, none, [("sp", some 3)]⟩⟩,
         ⟨some "B-2", some ⟨none, none, none, none, some 1, none, none, [("sp", some (-5))]⟩⟩]
      = [7, 12, 12]
    ∧ ¬ ((12 : ℚ) ≤ 7) := by
  constructor
  · norm_num [burndown_remaining, _daterange_inclusive, daterange_go, done_on,
      bd_contribution, sp_sum_value, _field_sp_from_fields, List.lookup,
      remaining_go]
  · norm_num

/-! ## Completion tallies and hygiene audits (C7) -/

/-- Python `str.lower()` for the ASCII status and type names the program
compares: lower-case every character.  (Core `String.toLower` is
observationally the same here but does not reduce inside the kernel, so the
character-level model is used.) -/
def py_to_lower (s : String) : String := ⟨s.data.map Char.toLower⟩

/-- Python `str.strip()`: drop whitespace from both ends. -/
def py_strip (s : String) : String :=
  ⟨((s.data.dropWhile Char.isWhitespace).reverse.dropWhile Char.isWhitespace).reverse⟩

/-- The fixed exclusion set `AUDIT_EXCLUDED_STATUS_NAMES`
(`sprint_report.py` line 127): terminal-but-not-delivered status names,
compared case-insensitively. -/
def AUDIT_EXCLUDED_STATUS_NAMES : List String := ["cancelled", "canceled", "not needed"]

/-- The audit issue-type allow-list `AUDIT_ISSUE_TYPES`
(`sprint_report.py` line 125). -/
def AUDIT_ISSUE_TYPES : List String := ["story", "task"]

/-- The tech-debt epic key `TD_EPIC_KEY` (`sprint_report.py` line 107,
environment default). -/
def TD_EPIC_KEY : String := "GV-2398"

/-- Embedding of `_is_done(fields)` (`sprint_report.py` lines 901-909):
the status-category key equals `done`. -/
def _is_done (f : Fields) : Bool :=
  (f.status.bind (fun st => st.statusCategoryKey)) = some "done"

/-- A row of the effort-bearing tables: `(key, summary, sp, status)`. -/
structure TableRow where
  key : String
  summary : String
  sp : ℚ
  status : String
  deriving DecidableEq

/-- Stable descending insertion for `rows.sort(key=lambda r: r[2], reverse=True)`:
a row is placed before the first existing row with strictly smaller effort,
so rows with equal effort keep their original relative order, exactly like
the stable Python sort with `reverse=True`. -/
def insert_desc (r : TableRow) : List TableRow → List TableRow
  | [] => [r]
  | x :: xs => if x.sp < r.sp then r :: x :: xs else x :: insert_desc r xs

/-- Stable sort of table rows by effort descending (the Python
`rows.sort(key=lambda r: (r[2] or 0.0), reverse=True)`). -/
def sort_by_sp_desc (rows : List TableRow) : List TableRow :=
  rows.foldl (fun acc r => insert_desc r acc) []

/-- The status name an issue row displays:
`((f.get("status") or Map()).get("name") or "").strip()`. -/
def row_status_name (f : Fields) : String :=
  py_strip ((f.status.bind (fun st => st.name)).getD "")

/-- The per-issue loop body of `top5_completed_stories`
(`sprint_report.py` lines 979-1005), applied to the issues returned by the
paginated walker: re-verify the done status category client-side only when
the server filter was not applied, keep only the local story/task
allow-list, and resolve effort through the discovered field order with the
report effort map as fallback.  No excluded-status check appears in this
builder. -/
def top5_rows_core (spIds : List String) (sp_map : List (String × ℚ))
    (usf : Bool) : List Issue → List TableRow
  | [] => []
  | it :: rest =>
    let f := it.fields.getD Fields.empty
    if !usf && !(_is_done f) then top5_rows_core spIds sp_map usf rest
    else
      let itype := py_to_lower (py_strip (f.issuetypeName.getD ""))
      if !(itype ∈ ["story", "task"]) then top5_rows_core spIds sp_map usf rest
      else
        let key := it.key.getD ""
        let sp := match _field_sp_from_fields spIds f.custom with
          | some v => v
          | none => (sp_map.lookup key).getD 0
        ⟨key, f.summary.getD "", sp, row_status_name f⟩ ::
          top5_rows_core spIds sp_map usf rest

/-- Embedding of `top5_completed_stories(report, sprint_id)`
(`sprint_report.py` lines 965-1009): the collected rows sorted by effort
descending, truncated to five. -/
def top5_completed_stories_rows (spIds : List String) (sp_map : List (String × ℚ))
    (usf : Bool) (issues : List Issue) : List TableRow :=
  (sort_by_sp_desc (top5_rows_core spIds sp_map usf issues)).take 5

/-- The per-issue loop body of `completed_tech_debts_with_sp`
(`sprint_report.py` lines 1027-1059): the done gate (client-side only when
the server filter was not applied), then the case-insensitive
excluded-status check, then the tech-debt epic-link check. -/
def tech_debt_rows_core (spIds : List String) (sp_map : List (String × ℚ))
    (usf : Bool) : List Issue → List TableRow
  | [] => []
  | it :: rest =>
    let f := it.fields.getD Fields.empty
    if !usf && !(_is_done f) then tech_debt_rows_core spIds sp_map usf rest
    else if py_to_lower (py_strip ((f.status.bind (fun st => st.name)).getD ""))
        ∈ AUDIT_EXCLUDED_STATUS_NAMES then
      tech_debt_rows_core spIds sp_map usf rest
    else if f.epicLink ≠ some TD_EPIC_KEY then tech_debt_rows_core spIds sp_map usf rest
    else
      let key := it.key.getD ""
      let sp := match _field_sp_from_fields spIds f.custom with
        | some v => v
        | none => (sp_map.lookup key).getD 0
      ⟨key, f.summary.getD "", sp, row_status_name f⟩ ::
        tech_debt_rows_core spIds sp_map usf rest

/-- Embedding of `completed_tech_debts_with_sp(report, sprint_id)`
(`sprint_report.py` lines 1013-1063): the collected rows sorted by effort
descending. -/
def completed_tech_debts_rows (spIds : List String) (sp_map : List (String × ℚ))
    (usf : Bool) (issues : List Issue) : List TableRow :=
  sort_by_sp_desc (tech_debt_rows_core spIds sp_map usf issues)

theorem mem_insert_desc (r x : TableRow) (l : List TableRow) :
    x ∈ insert_desc r l ↔ x = r ∨ x ∈ l := by
  induction l with
  | nil => simp [insert_desc]
  | cons a as ih =>
    simp only [insert_desc]
    by_cases h : a.sp < r.sp
    · simp [h]
    · simp [h, ih]
      tauto

theorem mem_sort_by_sp_desc (x : TableRow) (rows : List TableRow) :
    x ∈ sort_by_sp_desc rows ↔ x ∈ rows := by
  suffices h : ∀ acc, x ∈ rows.foldl (fun acc r => insert_desc r acc) acc
      ↔ x ∈ acc ∨ x ∈ rows by
    simpa [sort_by_sp_desc] using h []
  induction rows with
  | nil => simp
  | cons r rest ih =>
    intro acc
    simp only [List.foldl_cons, ih, mem_insert_desc, List.mem_cons]
    tauto

theorem mem_tech_debt_rows_core (spIds : List String) (sp_map : List (String × ℚ))
    (usf : Bool) (issues : List Issue) (r : TableRow)
    (hr : r ∈ tech_debt_rows_core spIds sp_map usf issues) :
    py_to_lower r.status ∉ AUDIT_EXCLUDED_STATUS_NAMES := by
  induction issues with
  | nil => simp [tech_debt_rows_core] at hr
  | cons it rest ih =>
    simp only [tech_debt_rows_core] at hr
    by_cases h1 : !usf && !(_is_done (it.fields.getD Fields.empty))
    · rw [if_pos h1] at hr
      exact ih hr
    · rw [if_neg h1] at hr
      by_cases h2 : py_to_lower (py_strip (((it.fields.getD Fields.empty).status.bind
          (fun st => st.name)).getD "")) ∈ AUDIT_EXCLUDED_STATUS_NAMES
      · rw [if_pos h2] at hr
        exact ih hr
      · rw [if_neg h2] at hr
        by_cases h3 : (it.fields.getD Fields.empty).epicLink ≠ some TD_EPIC_KEY
        · rw [if_pos h3] at hr
          exact ih hr
        · rw [if_neg h3] at hr
          rcases List.mem_cons.mp hr with hhead | htail
          · subst hhead
            simpa [row_status_name] using h2
          · exact ih htail

/-- Claim C7 (amended): the completed tech-debt tally applies the
case-insensitive excluded-status filter to the rows actually returned,
independently of whether server-side filtering was used — no row of
`completed_tech_debts_with_sp` carries an excluded status name.  The top
completed tally applies no such filter at all, and the two hygiene audits
rely solely on the server-side status filter (see the accompanying
counterexample on the top completed tally). -/
theorem tech_debt_excludes_terminal_statuses (spIds : List String)
    (sp_map : List (String × ℚ)) (usf : Bool) (issues : List Issue) (r : TableRow)
    (hr : r ∈ completed_tech_debts_rows spIds sp_map usf issues) :
    py_to_lower r.status ∉ AUDIT_EXCLUDED_STATUS_NAMES := by
  rw [completed_tech_debts_rows, mem_sort_by_sp_desc] at hr
  exact mem_tech_debt_rows_core spIds sp_map usf issues r hr

/-- Witness for C7 (amended): a done tech-debt issue with status name
`Done` produces a row of the tech-debt tally, and the theorem yields that
its status is not excluded. -/
theorem tech_debt_excludes_terminal_statuses_check :
    py_to_lower (⟨"GV-10", "fix", 5, "Done"⟩ : TableRow).status
      ∉ AUDIT_EXCLUDED_STATUS_NAMES :=
  tech_debt_excludes_terminal_statuses ["sp"] [] true
    [⟨some "GV-10", some ⟨some "fix", some "Story", some ⟨some "Done", some "done"⟩,
      none, none, none, some "GV-2398", [("sp", some 5)]⟩⟩]
    ⟨"GV-10", "fix", 5, "Done"⟩ (by decide)

/-- Counterexample for C7 as stated: an issue whose status name is
`Cancelled` (an excluded terminal name) but whose status category is
`done` and whose type is `Story` appears in the rows returned by the
top-completed tally — `top5_completed_stories` never consults the
excluded-status set, so the exclusion policy does not hold for every
completion tally. -/
theorem top5_includes_excluded_status :
    top5_completed_stories_rows ["sp"] [] true
        [⟨some "GV-1", some ⟨some "x", some "Story", some ⟨some "Cancelled", some "done"⟩,
          none, none, none, none, [("sp", some 5)]⟩⟩]
      = [⟨"GV-1", "x", 5, "Cancelled"⟩]
    ∧ py_to_lower "Cancelled" ∈ AUDIT_EXCLUDED_STATUS_NAMES := by
  constructor
  · decide
  · decide

/-! ## Paginated sprint-issue walker (C9) -/

/-- The page loop of `agile_sprint_issues_paginated`
(`sprint_report.py` lines 847-895): `upstream start_at` is the `issues`
chunk the endpoint returns for that offset; each iteration appends the
chunk and stops after a short page (`len(chunk) < page_size`); the fuel is
the `max_pages` bound of the `for` loop, and the offset advances by
`page_size`.  No deduplication is performed. -/
def paginate_go (upstream : Nat → List Issue) (page_size : Nat) :
    Nat → Nat → List Issue
  | 0, _ => []
  | fuel + 1, start_at =>
    let chunk := upstream start_at
    if chunk.length < page_size then chunk
    else chunk ++ paginate_go upstream page_size fuel (start_at + page_size)

/-- Embedding of `agile_sprint_issues_paginated(sprint_id, jql, fields, max_pages, page_size)`
(`sprint_report.py` lines 829-895) on its non-raising path: the looped page
walk from offset 0 plus the `used_server_filter` flag (`True` when no
request raised; the JQL-failure re-walk runs the identical loop against the
unfiltered upstream). -/
def agile_sprint_issues_paginated (upstream : Nat → List Issue)
    (max_pages page_size : Nat) : List Issue × Bool :=
  (paginate_go upstream page_size max_pages 0, true)

/-- Specification-side view of the walk (from the contract wording): the
successive pages the walker visits, in order, cut off at the first short
page or at the page budget. -/
def pages_fetched (upstream : Nat → List Issue) (page_size : Nat) :
    Nat → Nat → List (List Issue)
  | 0, _ => []
  | fuel + 1, start_at =>
    let chunk := upstream start_at
    if chunk.length < page_size then [chunk]
    else chunk :: pages_fetched upstream page_size fuel (start_at + page_size)

theorem paginate_go_eq_join (upstream : Nat → List Issue) (page_size : Nat)
    (fuel start_at : Nat) :
    paginate_go upstream page_size fuel start_at
      = (pages_fetched upstream page_size fuel start_at).flatten := by
  induction fuel generalizing start_at with
  | zero => rfl
  | succ fuel ih =>
    simp only [paginate_go, pages_fetched]
    by_cases h : (upstream start_at).length < page_size
    · simp [h]
    · simp [h, ih]

/-- Claim C9 (amended): the paginated sprint-issue walker returns exactly
the concatenation of the pages it fetched, performing no deduplication
(first conjunct); consequently its result has no duplicate issue
identifiers precisely when the fetched pages jointly contain none (second
conjunct) — overlapping pages produce duplicates (see the accompanying
counterexample). -/
theorem paginated_walker_concat_of_pages (upstream : Nat → List Issue)
    (max_pages page_size : Nat)
    (h : (((pages_fetched upstream page_size max_pages 0).flatten).map Issue.key).Nodup) :
    (agile_sprint_issues_paginated upstream max_pages page_size).1
        = (pages_fetched upstream page_size max_pages 0).flatten
    ∧ ((agile_sprint_issues_paginated upstream max_pages page_size).1.map Issue.key).Nodup := by
  have he : (agile_sprint_issues_paginated upstream max_pages page_size).1
      = (pages_fetched upstream page_size max_pages 0).flatten :=
    paginate_go_eq_join upstream page_size max_pages 0
  exact ⟨he, by rw [he]; exact h⟩

/-- Witness for C9 (amended): an upstream whose single short page holds two
distinct keys satisfies the no-joint-duplicates hypothesis, and the walker
output is that page with no duplicate keys. -/
theorem paginated_walker_concat_of_pages_check :
    (agile_sprint_issues_paginated
        (fun s => if s = 0 then [⟨some "A-1", none⟩, ⟨some "A-2", none⟩] else [])
        50 100).1
      = (pages_fetched
          (fun s => if s = 0 then [⟨some "A-1", none⟩, ⟨some "A-2", none⟩] else [])
          100 50 0).flatten
    ∧ ((agile_sprint_issues_paginated
        (fun s => if s = 0 then [⟨some "A-1", none⟩, ⟨some "A-2", none⟩] else [])
        50 100).1.map Issue.key).Nodup :=
  paginated_walker_concat_of_pages _ 50 100 (by decide)

/-- Counterexample for C9 as stated: with page size 1 and an upstream whose
first two pages both return the same issue (overlapping pages), the walker
returns that issue twice — the returned item list does contain duplicate
issue identifiers. -/
theorem paginated_walker_duplicates_on_overlap :
    ((agile_sprint_issues_paginated
        (fun s => if s = 0 then [⟨some "A-1", none⟩]
                  else if s = 1 then [⟨some "A-1", none⟩] else [])
        5 1).1.map Issue.key)
      = [some "A-1", some "A-1"]
    ∧ ¬ (((agile_sprint_issues_paginated
        (fun s => if s = 0 then [⟨some "A-1", none⟩]
                  else if s = 1 then [⟨some "A-1", none⟩] else [])
        5 1).1.map Issue.key).Nodup) := by
  constructor
  · decide
  · decide

/-! ## Cross-epic action items: failed sub-task fetches (C10) -/

/-- Python truthiness-based string defaulting `x or default` for the string
members read by `_pull_common` (`it_fields.get(...) or "-"`): an absent,
null or empty string falls back to the default. -/
def py_or_str (v : Option String) (d : String) : String :=
  match v with
  | some s => if s = "" then d else s
  | none => d

/-- Embedding of `get_issue_fields(issue_key, fields)`
(`sprint_report.py` lines 645-659): the fetched `fields` object on success,
and the empty dictionary when the underlying request raised (the `except`
branch logs a warning and returns the empty dictionary). -/
def get_issue_fields (res : Except Unit Fields) : Fields :=
  match res with
  | Except.ok f => f
  | Except.error _ => Fields.empty

/-- Embedding of `_pull_common(it_fields)` (`sprint_report.py` lines
1253-1267): display summary, assignee and status (each defaulting to a
dash), the raw status-category key, and the working-day age from the
parsed creation date.  `today` is the ambient "now" date threaded
explicitly. -/
def _pull_common (f : Fields) (today : Int) :
    String × String × String × Option String × Nat :=
  (py_or_str f.summary "-",
   py_or_str f.assigneeDisplayName "-",
   py_or_str (f.status.bind (fun st => st.name)) "-",
   f.status.bind (fun st => st.statusCategoryKey),
   working_days_since f.created today)

/-- An open action-item row `(key, summary, assignee, ageing, status)`;
`ageing` is the rendered string of the working-day age. -/
structure OpenRow where
  key : String
  summary : String
  assignee : String
  ageing : String
  status : String
  deriving DecidableEq

/-- A done action-item row `(key, summary, assignee, status)`. -/
structure DoneRow where
  key : String
  summary : String
  assignee : String
  status : String
  deriving DecidableEq

/-- The sub-task loop of `fetch_epic_action_items`
(`sprint_report.py` lines 1317-1331): each sub-task key is fetched
individually (`res` is the outcome of that single-issue fetch) and
classified into the done list when its status category is `done`, and
otherwise into the open list paired with its age for the later sort.
The open rows carry the rendered `(age) days` ageing string. -/
def subtask_rows (today : Int) :
    List (String × Except Unit Fields) → List (Nat × OpenRow) × List DoneRow
  | [] => ([], [])
  | (sk, res) :: rest =>
    let sf := get_issue_fields res
    match _pull_common sf today with
    | (summary, assignee, status, status_cat, age) =>
      let (opens, dones) := subtask_rows today rest
      if status_cat = some "done" then
        (opens, ⟨sk, summary, assignee, status⟩ :: dones)
      else
        ((age, ⟨sk, summary, assignee, toString age ++ " days", status⟩) :: opens, dones)

/-- Claim C10: a failed single-issue fetch for a sub-task key does not
abort the cross-epic action-item build; the sub-task is still emitted —
classified as open (empty field map has no done status category) with
summary, assignee and status all `-` and age 0 (rendered `0 days`) — and
every other sub-task row, before and after it, is exactly what it would
have been without the failing entry, so one failed fetch degrades only its
own row. -/
theorem subtask_fetch_failure_degrades_single_row (today : Int)
    (pre post : List (String × Except Unit Fields)) (k : String) :
    subtask_rows today (pre ++ (k, Except.error ()) :: post)
      = ((subtask_rows today pre).1
            ++ (0, ⟨k, "-", "-", "0 days", "-"⟩) :: (subtask_rows today post).1,
         (subtask_rows today pre).2 ++ (subtask_rows today post).2) := by
  induction pre with
  | nil =>
    simp only [List.nil_append, subtask_rows, get_issue_fields, _pull_common,
      py_or_str, Fields.empty, working_days_since]
    rfl
  | cons hd rest ih =>
    rcases hd with ⟨sk, res⟩
    simp only [List.cons_append, subtask_rows, ih]
    rcases hm : _pull_common (get_issue_fields res) today with
      ⟨summary, assignee, status, status_cat, age⟩
    by_cases hdone : status_cat = some "done" <;> simp [hdone, ih]

end SprintReport
